import Mathlib

/-!
Verification of the turn latency tracker of this repository.

The development is a shallow embedding of the two tracker classes:

* `SimpleLatencyTracker` in `src/src/agent.py` (lines 29-132), and
* `LatencyTracker` in `src/src/agent_configurable.py` (lines 29-93),

together with the `_on_metrics_collected` event handlers that feed them
(`agent.py` lines 285-307, `agent_configurable.py` lines 205-220).

Modelling conventions:

* Python floats are embedded as rationals (`ℚ`).  All durations handled by
  the tracker are exact small decimals times 1000, and the percentile index
  computations `int(n * 0.50)`, `int(n * 0.90)`, `int(n * 0.99)` agree with
  the exact rational floors `n * 50 / 100`, `n * 90 / 100`, `n * 99 / 100`
  for every list length `n` a Python list can have: `0.5` is exact in binary,
  and the representation errors of `0.9` and `0.99` (about `2^-56`) scaled by
  `n` never move the product across an integer boundary, because `9n/10` and
  `99n/100` are at distance at least `1/100` from any other integer and the
  rounding of the product at an exact integer point stays within half an ulp
  of it.  So the index is embedded as natural division `n * p / 100`.
* Operations that can raise in Python (`list` indexing, `statistics.mean`,
  `min`/`max` of an empty list, division by a zero length, multiplying a
  non-numeric payload by 1000) are embedded in `Except String`; the
  `try/except` boundary of the event handlers is the `match` in
  `on_metrics_collected` / `config_on_metrics_collected` that turns an
  `Except.error` into "no state change" (`except Exception: pass`).
* The two classes' `add_eou` / `add_llm` / `add_tts` / `_check_complete_turn`
  bodies are line-for-line identical (they differ only in log padding), so a
  single embedding `add_eou` / `add_llm` / `add_tts` / `check_complete_turn`
  over the shared state type serves both; the two `print_summary` methods
  differ and are embedded separately (`print_summary`,
  `config_print_summary`).
* `logger.info` calls that report a metric value or a turn total are
  embedded as emitted `LogEntry` values, so "produces no log line" is the
  emitted list being empty.  Purely decorative lines (separators, headers)
  are not modelled.
-/

namespace LatencyAgent

/-- The three metric kinds the tracker correlates: end-of-utterance delay,
LLM time-to-first-token, TTS time-to-first-byte. -/
inductive Kind where
  | eou
  | llm
  | tts
deriving DecidableEq, Fintype

/-- A completed turn: the record appended to the history when the third slot
of the pending turn fills (`_check_complete_turn`, `agent.py` lines 61-77).
`index` is the 1-based value of `turn_count` at completion and `total_ms` the
sum the source computes as `self.current_eou + self.current_llm +
self.current_tts`. -/
structure CompletedTurn where
  index : Nat
  eou_ms : ℚ
  llm_ttft_ms : ℚ
  tts_ttfb_ms : ℚ
  total_ms : ℚ
deriving DecidableEq

/-- State of `SimpleLatencyTracker.__init__` (`agent.py` lines 32-41) and,
field for field, of `LatencyTracker.__init__` (`agent_configurable.py`
lines 32-40): three per-series history lists, the completed-turn count, and
the three pending slots of the current turn. -/
structure SimpleLatencyTracker where
  eou_delays : List ℚ
  llm_ttfts : List ℚ
  tts_ttfbs : List ℚ
  turn_count : Nat
  current_eou : Option ℚ
  current_llm : Option ℚ
  current_tts : Option ℚ
deriving DecidableEq

/-- The freshly constructed tracker: empty history, no pending values. -/
def initTracker : SimpleLatencyTracker :=
  { eou_delays := [], llm_ttfts := [], tts_ttfbs := [], turn_count := 0,
    current_eou := none, current_llm := none, current_tts := none }

/-- A log line the tracker emits: the per-metric line of `add_eou` /
`add_llm` / `add_tts`, or the `TOTAL (Turn #k)` line of
`_check_complete_turn`. -/
inductive LogEntry where
  | metricLine (k : Kind) (ms : ℚ)
  | totalLine (turn : Nat) (total_ms : ℚ)
deriving DecidableEq

/-- Embedding of `_check_complete_turn` (`agent.py` lines 61-77,
`agent_configurable.py` lines 57-71): if all three pending slots are filled,
increment `turn_count`, append each slot value to its series, log the total,
and clear the slots.  The produced `CompletedTurn` (if any) and the emitted
log lines are returned alongside the new state. -/
def check_complete_turn (s : SimpleLatencyTracker) :
    SimpleLatencyTracker × Option CompletedTurn × List LogEntry :=
  match s.current_eou, s.current_llm, s.current_tts with
  | some e, some l, some t =>
    ({ eou_delays := s.eou_delays ++ [e],
       llm_ttfts := s.llm_ttfts ++ [l],
       tts_ttfbs := s.tts_ttfbs ++ [t],
       turn_count := s.turn_count + 1,
       current_eou := none, current_llm := none, current_tts := none },
     some { index := s.turn_count + 1, eou_ms := e, llm_ttft_ms := l,
            tts_ttfb_ms := t, total_ms := e + l + t },
     [LogEntry.totalLine (s.turn_count + 1) (e + l + t)])
  | _, _, _ => (s, none, [])

/-- Embedding of `add_eou` (`agent.py` lines 43-47): store the millisecond
value in the EOU slot, log it, then check for a complete turn. -/
def add_eou (delay_ms : ℚ) (s : SimpleLatencyTracker) :
    SimpleLatencyTracker × Option CompletedTurn × List LogEntry :=
  let r := check_complete_turn { s with current_eou := some delay_ms }
  (r.1, r.2.1, LogEntry.metricLine Kind.eou delay_ms :: r.2.2)

/-- Embedding of `add_llm` (`agent.py` lines 49-53). -/
def add_llm (ttft_ms : ℚ) (s : SimpleLatencyTracker) :
    SimpleLatencyTracker × Option CompletedTurn × List LogEntry :=
  let r := check_complete_turn { s with current_llm := some ttft_ms }
  (r.1, r.2.1, LogEntry.metricLine Kind.llm ttft_ms :: r.2.2)

/-- Embedding of `add_tts` (`agent.py` lines 55-59). -/
def add_tts (ttfb_ms : ℚ) (s : SimpleLatencyTracker) :
    SimpleLatencyTracker × Option CompletedTurn × List LogEntry :=
  let r := check_complete_turn { s with current_tts := some ttfb_ms }
  (r.1, r.2.1, LogEntry.metricLine Kind.tts ttfb_ms :: r.2.2)

/-- A `record(kind, ms)` call: dispatch to the `add_*` method of the kind,
exactly as the event handler does after classification. -/
def record (k : Kind) (ms : ℚ) (s : SimpleLatencyTracker) :
    SimpleLatencyTracker × Option CompletedTurn × List LogEntry :=
  match k with
  | Kind.eou => add_eou ms s
  | Kind.llm => add_llm ms s
  | Kind.tts => add_tts ms s

/-- The pending slot of a kind. -/
def slot (k : Kind) (s : SimpleLatencyTracker) : Option ℚ :=
  match k with
  | Kind.eou => s.current_eou
  | Kind.llm => s.current_llm
  | Kind.tts => s.current_tts

/-- The set of kinds whose pending slot is filled. -/
def filledKinds (s : SimpleLatencyTracker) : Finset Kind :=
  Finset.univ.filter (fun k => (slot k s).isSome)

/-- Abstract one-step evolution of "the distinct kinds recorded since the
last completion": recording kind `k` adds it to the set, and if that fills
all three kinds the turn completes and the set resets to empty. -/
def kindsStep (K : Finset Kind) (k : Kind) : Finset Kind :=
  if insert k K = Finset.univ then ∅ else insert k K

/-- The distinct kinds recorded since the last completion after a whole
sequence of record calls, computed purely at the level of kinds. -/
def kindsSince (calls : List (Kind × ℚ)) : Finset Kind :=
  calls.foldl (fun K c => kindsStep K c.1) ∅

/-- Run a sequence of record calls, keeping only the state. -/
def runRecords (calls : List (Kind × ℚ)) (s : SimpleLatencyTracker) :
    SimpleLatencyTracker :=
  calls.foldl (fun st c => (record c.1 c.2 st).1) s

/-- The tracker invariant of spec section 3: each per-series history list has
length `turn_count`.  (That the tracker holds at most one pending turn is
structural in this embedding: the state has exactly one triple of slots.) -/
def Inv (s : SimpleLatencyTracker) : Prop :=
  s.eou_delays.length = s.turn_count ∧
  s.llm_ttfts.length = s.turn_count ∧
  s.tts_ttfbs.length = s.turn_count

/-- Ascending sort, embedding Python's `sorted` (values only; stability is
irrelevant for a list of numbers). -/
def sortedQ (xs : List ℚ) : List ℚ :=
  List.insertionSort (· ≤ ·) xs

/-- The percentile index `int(n * p/100)` the source computes with float
multiplication (`int(n * 0.50)`, `int(n * 0.90)`, `int(n * 0.99)`), embedded
as the exact rational floor; see the modelling note at the top of the file. -/
def pIdx (n p : Nat) : Nat :=
  n * p / 100

/-- Python list indexing: `xs[i]`, raising `IndexError` out of bounds. -/
def listGet? (xs : List ℚ) (i : Nat) : Except String ℚ :=
  match xs.get? i with
  | some v => Except.ok v
  | none => Except.error "IndexError"

/-- Python `statistics.mean(xs)` and `sum(xs)/len(xs)`: exact rational mean,
raising on an empty list. -/
def pyMean (xs : List ℚ) : Except String ℚ :=
  if xs.length = 0 then Except.error "mean of empty data"
  else Except.ok (xs.sum / (xs.length : ℚ))

/-- Python `min(xs)`, raising on an empty list. -/
def pyMin (xs : List ℚ) : Except String ℚ :=
  match xs with
  | [] => Except.error "min of empty sequence"
  | x :: rest => Except.ok (rest.foldl min x)

/-- Python `max(xs)`, raising on an empty list. -/
def pyMax (xs : List ℚ) : Except String ℚ :=
  match xs with
  | [] => Except.error "max of empty sequence"
  | x :: rest => Except.ok (rest.foldl max x)

/-- The six numbers `calc_stats` reports for one series (`agent.py`
lines 85-103). -/
structure Stats where
  avg : ℚ
  p50 : ℚ
  p90 : ℚ
  p99 : ℚ
  min : ℚ
  max : ℚ
deriving DecidableEq

/-- Embedding of the inner `calc_stats` of `SimpleLatencyTracker.print_summary`
(`agent.py` lines 85-103): `none` when the series is empty (the early
`return`), otherwise the mean and the nearest-rank percentiles
`sorted_vals[int(n * 0.50)]` (guarded by `n > 0`),
`sorted_vals[int(n * 0.90)]` and `sorted_vals[int(n * 0.99)]` (each guarded
by `n > 1`, else `sorted_vals[0]`), and `min`/`max` of the raw values. -/
def calc_stats (values : List ℚ) : Except String (Option Stats) :=
  if values = [] then Except.ok none
  else do
    let sorted_vals := sortedQ values
    let n := sorted_vals.length
    let avg ← pyMean values
    let p50 ← if 0 < n then listGet? sorted_vals (pIdx n 50) else Except.ok 0
    let p90 ← if 1 < n then listGet? sorted_vals (pIdx n 90) else listGet? sorted_vals 0
    let p99 ← if 1 < n then listGet? sorted_vals (pIdx n 99) else listGet? sorted_vals 0
    let mn ← pyMin values
    let mx ← pyMax values
    Except.ok (some { avg := avg, p50 := p50, p90 := p90, p99 := p99,
                      min := mn, max := mx })

/-- The qualitative verdict of `agent.py` lines 125-130. -/
inductive Verdict where
  | excellent
  | good
  | needsOptimization
deriving DecidableEq

/-- The per-turn totals `[e + l + t for e, l, t in zip(...)]` (`agent.py`
line 106, `agent_configurable.py` line 78); `zip` truncates to the shortest
list, as nested `List.zip` does. -/
def totalsOf (s : SimpleLatencyTracker) : List ℚ :=
  (s.eou_delays.zip (s.llm_ttfts.zip s.tts_ttfbs)).map (fun p => p.1 + p.2.1 + p.2.2)

/-- Everything `SimpleLatencyTracker.print_summary` reports for a non-empty
history: turn count, the four per-series stat blocks (each `Option` because
`calc_stats` reports nothing for an empty series), the standalone P90/P99
total lines, and the verdict. -/
structure Summary where
  total_turns : Nat
  eou : Option Stats
  llm : Option Stats
  tts : Option Stats
  total : Option Stats
  total_p90 : ℚ
  total_p99 : ℚ
  verdict : Verdict
deriving DecidableEq

/-- The standalone total-percentile expression of `agent.py` lines 119-120:
`sorted(totals)[int(len(totals) * p/100)] if len(totals) > 1 else totals[0]`. -/
def standalone_p (totals : List ℚ) (p : Nat) : Except String ℚ :=
  if 1 < totals.length then listGet? (sortedQ totals) (pIdx totals.length p)
  else listGet? totals 0

/-- Embedding of `SimpleLatencyTracker.print_summary` (`agent.py`
lines 79-132): early `none` when `turn_count == 0`; otherwise the totals,
the four `calc_stats` blocks, the standalone
`sorted(totals)[int(len(totals) * 0.90)] if len(totals) > 1 else totals[0]`
P90/P99 computations, and the threshold verdict on the standalone P90. -/
def print_summary (s : SimpleLatencyTracker) : Except String (Option Summary) :=
  if s.turn_count = 0 then Except.ok none
  else do
    let totals := totalsOf s
    let eouStats ← calc_stats s.eou_delays
    let llmStats ← calc_stats s.llm_ttfts
    let ttsStats ← calc_stats s.tts_ttfbs
    let totalStats ← calc_stats totals
    let total_p90 ← standalone_p totals 90
    let total_p99 ← standalone_p totals 99
    let verdict := if total_p90 < 500 then Verdict.excellent
      else if total_p90 < 800 then Verdict.good
      else Verdict.needsOptimization
    Except.ok (some { total_turns := s.turn_count, eou := eouStats,
                      llm := llmStats, tts := ttsStats, total := totalStats,
                      total_p90 := total_p90, total_p99 := total_p99,
                      verdict := verdict })

/-- The numbers `LatencyTracker.print_summary` (`agent_configurable.py`
lines 73-93) reports: turn count, the three per-series averages, and the
average, P90, min and max of the totals. -/
structure ConfigSummary where
  turn_count : Nat
  avg_eou : ℚ
  avg_llm : ℚ
  avg_tts : ℚ
  avg_total : ℚ
  p90_total : ℚ
  min_total : ℚ
  max_total : ℚ
deriving DecidableEq

/-- The P90 computation of `agent_configurable.py` lines 80-82:
`p90_idx = int(len(sorted_totals) * 0.90)` and
`sorted_totals[p90_idx] if p90_idx < len(sorted_totals) else sorted_totals[-1]`
(the fallback indexes the last element, raising on an empty list). -/
def config_p90 (totals : List ℚ) : Except String ℚ :=
  let sorted_totals := sortedQ totals
  let p90_idx := pIdx sorted_totals.length 90
  if p90_idx < sorted_totals.length then listGet? sorted_totals p90_idx
  else
    match sorted_totals.getLast? with
    | some v => Except.ok v
    | none => Except.error "IndexError"

/-- Embedding of `LatencyTracker.print_summary` (`agent_configurable.py`
lines 73-93): early `none` when `turn_count == 0`; otherwise
`sum(totals)/len(totals)`, the `config_p90` selection, the three per-series
averages and `min`/`max` of the totals, in source order. -/
def config_print_summary (s : SimpleLatencyTracker) :
    Except String (Option ConfigSummary) :=
  if s.turn_count = 0 then Except.ok none
  else do
    let totals := totalsOf s
    let avg ← pyMean totals
    let p90 ← config_p90 totals
    let avg_eou ← pyMean s.eou_delays
    let avg_llm ← pyMean s.llm_ttfts
    let avg_tts ← pyMean s.tts_ttfbs
    let mn ← pyMin totals
    let mx ← pyMax totals
    Except.ok (some { turn_count := s.turn_count, avg_eou := avg_eou,
                      avg_llm := avg_llm, avg_tts := avg_tts, avg_total := avg,
                      p90_total := p90, min_total := mn, max_total := mx })

/-- A metric payload as the handler sees it: a number, or a non-numeric
object for which `value * 1000` raises `TypeError`. -/
inductive PyVal where
  | num (q : ℚ)
  | nonNum
deriving DecidableEq

/-- An incoming metrics event for the `agent.py` handler, which dispatches on
`type(m).__name__`: one constructor per recognized class name, carrying its
duration attribute (`none` embeds the attribute being absent or `None`, both
of which the `hasattr ... is not None` guard rejects), plus a constructor for
every other metric class. -/
inductive RawMetric where
  | eouMetrics (end_of_utterance_delay : Option PyVal)
  | llmMetrics (ttft : Option PyVal)
  | ttsMetrics (ttfb : Option PyVal)
  | otherMetrics
deriving DecidableEq

/-- The `duration * 1000` seconds-to-milliseconds conversion of the handlers,
raising `TypeError` on a non-numeric payload. -/
def pyMulMs (v : PyVal) : Except String ℚ :=
  match v with
  | PyVal.num q => Except.ok (q * 1000)
  | PyVal.nonNum => Except.error "TypeError"

/-- The body of the `try` block of `_on_metrics_collected` (`agent.py`
lines 293-304): classify the event by type name, check the duration
attribute, convert to milliseconds and call the matching `add_*` method. -/
def tryHandle (m : RawMetric) (s : SimpleLatencyTracker) :
    Except String (SimpleLatencyTracker × Option CompletedTurn × List LogEntry) :=
  match m with
  | RawMetric.eouMetrics (some v) => do
    let ms ← pyMulMs v
    Except.ok (add_eou ms s)
  | RawMetric.eouMetrics none => Except.ok (s, none, [])
  | RawMetric.llmMetrics (some v) => do
    let ms ← pyMulMs v
    Except.ok (add_llm ms s)
  | RawMetric.llmMetrics none => Except.ok (s, none, [])
  | RawMetric.ttsMetrics (some v) => do
    let ms ← pyMulMs v
    Except.ok (add_tts ms s)
  | RawMetric.ttsMetrics none => Except.ok (s, none, [])
  | RawMetric.otherMetrics => Except.ok (s, none, [])

/-- Embedding of `_on_metrics_collected` (`agent.py` lines 285-307): the
`try`/`except Exception: pass` boundary around `tryHandle` — an exception
leaves the tracker as it was and emits nothing. -/
def on_metrics_collected (m : RawMetric) (s : SimpleLatencyTracker) :
    SimpleLatencyTracker × Option CompletedTurn × List LogEntry :=
  match tryHandle m s with
  | Except.ok r => r
  | Except.error _ => (s, none, [])

/-- Run a sequence of events through `on_metrics_collected`, collecting every
produced `CompletedTurn` in order. -/
def runEvents (evs : List RawMetric) (s : SimpleLatencyTracker) :
    SimpleLatencyTracker × List CompletedTurn :=
  evs.foldl
    (fun acc ev =>
      let r := on_metrics_collected ev acc.1
      (r.1, acc.2 ++ r.2.1.toList))
    (s, [])

/-- An incoming metrics event for the `agent_configurable.py` handler, which
does not dispatch on the type name but probes all three duration attributes
with independent `if hasattr(...) and ... is not None` checks: the outer
`Option` embeds `hasattr`, the inner one the `is not None` check. -/
structure ConfigEvent where
  end_of_utterance_delay : Option (Option PyVal)
  ttft : Option (Option PyVal)
  ttfb : Option (Option PyVal)
deriving DecidableEq

/-- One attribute probe of the configurable handler
(`agent_configurable.py` lines 211-218): skip when the attribute is absent or
`None`, record when numeric, raise (carrying the state mutated so far, which
Python keeps) when `value * 1000` raises. -/
def attrStep (attr : Option (Option PyVal)) (k : Kind)
    (acc : SimpleLatencyTracker × List CompletedTurn × List LogEntry) :
    Except (SimpleLatencyTracker × List CompletedTurn × List LogEntry)
      (SimpleLatencyTracker × List CompletedTurn × List LogEntry) :=
  match attr with
  | some (some (PyVal.num q)) =>
    let r := record k (q * 1000) acc.1
    Except.ok (r.1, acc.2.1 ++ r.2.1.toList, acc.2.2 ++ r.2.2)
  | some (some PyVal.nonNum) => Except.error acc
  | some none => Except.ok acc
  | none => Except.ok acc

/-- Embedding of `_on_metrics_collected` (`agent_configurable.py`
lines 205-220): the three attribute probes in source order inside one
`try`/`except Exception: pass`; a raise in a later probe keeps the mutations
the earlier probes already made. -/
def config_on_metrics_collected (ev : ConfigEvent) (s : SimpleLatencyTracker) :
    SimpleLatencyTracker × List CompletedTurn × List LogEntry :=
  match (do
      let a ← attrStep ev.end_of_utterance_delay Kind.eou (s, [], [])
      let b ← attrStep ev.ttft Kind.llm a
      attrStep ev.ttfb Kind.tts b) with
  | Except.ok r => r
  | Except.error r => r

/-- Labels for the series a reported number belongs to. -/
inductive SeriesName where
  | eouS
  | llmS
  | ttsS
  | totalS
deriving DecidableEq

/-- Labels for the statistic a reported number is. -/
inductive StatName where
  | meanS
  | p50S
  | p90S
  | p99S
  | minS
  | maxS
deriving DecidableEq

/-- One item of a summary report: a labelled statistic, the verdict line, or
the turn count. -/
inductive ReportItem where
  | stat (series : SeriesName) (name : StatName) (value : ℚ)
  | verdictItem (v : Verdict)
  | turnsItem (n : Nat)
deriving DecidableEq

/-- The items one `calc_stats` block logs for a series (nothing when the
series was empty). -/
def statItems (sn : SeriesName) (st : Option Stats) : List ReportItem :=
  match st with
  | none => []
  | some st =>
    [ReportItem.stat sn StatName.meanS st.avg,
     ReportItem.stat sn StatName.p50S st.p50,
     ReportItem.stat sn StatName.p90S st.p90,
     ReportItem.stat sn StatName.p99S st.p99,
     ReportItem.stat sn StatName.minS st.min,
     ReportItem.stat sn StatName.maxS st.max]

/-- Every number `SimpleLatencyTracker.print_summary` logs, as labelled
items: the turn count, the four stat blocks, the standalone P90/P99 total
lines, and the verdict. -/
def reportOf (sum : Summary) : List ReportItem :=
  ReportItem.turnsItem sum.total_turns ::
    (statItems SeriesName.eouS sum.eou ++ statItems SeriesName.llmS sum.llm ++
     statItems SeriesName.ttsS sum.tts ++ statItems SeriesName.totalS sum.total) ++
    [ReportItem.stat SeriesName.totalS StatName.p90S sum.total_p90,
     ReportItem.stat SeriesName.totalS StatName.p99S sum.total_p99,
     ReportItem.verdictItem sum.verdict]

/-- Every number `LatencyTracker.print_summary` logs, as labelled items:
turn count, the three per-series averages, and average, P90, min, max of the
totals — no P50, no P99, no per-series min/max, and no verdict line. -/
def configReport (cs : ConfigSummary) : List ReportItem :=
  [ReportItem.turnsItem cs.turn_count,
   ReportItem.stat SeriesName.eouS StatName.meanS cs.avg_eou,
   ReportItem.stat SeriesName.llmS StatName.meanS cs.avg_llm,
   ReportItem.stat SeriesName.ttsS StatName.meanS cs.avg_tts,
   ReportItem.stat SeriesName.totalS StatName.meanS cs.avg_total,
   ReportItem.stat SeriesName.totalS StatName.p90S cs.p90_total,
   ReportItem.stat SeriesName.totalS StatName.minS cs.min_total,
   ReportItem.stat SeriesName.totalS StatName.maxS cs.max_total]

/-- Whether a report contains a verdict line. -/
def hasVerdict (items : List ReportItem) : Bool :=
  items.any fun i =>
    match i with
    | ReportItem.verdictItem _ => true
    | _ => false

/-- Whether a report contains the given statistic of the given series. -/
def hasStat (items : List ReportItem) (sn : SeriesName) (st : StatName) : Bool :=
  items.any fun i =>
    match i with
    | ReportItem.stat sn' st' _ => decide (sn' = sn) && decide (st' = st)
    | _ => false

/-! ## Helper lemmas -/

/-- A `Finset Kind` is everything exactly when it holds all three kinds. -/
lemma eq_univ_kinds_iff (K : Finset Kind) :
    K = Finset.univ ↔ (Kind.eou ∈ K ∧ Kind.llm ∈ K ∧ Kind.tts ∈ K) := by
  constructor
  · intro h
    subst h
    exact ⟨Finset.mem_univ _, Finset.mem_univ _, Finset.mem_univ _⟩
  · intro h
    apply Finset.eq_univ_iff_forall.mpr
    intro x
    cases x
    · exact h.1
    · exact h.2.1
    · exact h.2.2

/-- A record call completes a turn exactly when its kind joins the filled
slots to cover all three kinds. -/
lemma record_isSome_iff (s : SimpleLatencyTracker) (k : Kind) (v : ℚ) :
    (record k v s).2.1.isSome ↔ insert k (filledKinds s) = Finset.univ := by
  obtain ⟨ed, lt, tt, tc, ce, cl, ct⟩ := s
  cases k <;> cases ce <;> cases cl <;> cases ct <;>
    simp [record, add_eou, add_llm, add_tts, check_complete_turn,
      eq_univ_kinds_iff, filledKinds, slot, Finset.mem_insert, Finset.mem_filter]

/-- One record call evolves the filled-kinds set by `kindsStep`. -/
lemma filledKinds_record (s : SimpleLatencyTracker) (k : Kind) (v : ℚ) :
    filledKinds (record k v s).1 = kindsStep (filledKinds s) k := by
  obtain ⟨ed, lt, tt, tc, ce, cl, ct⟩ := s
  apply Finset.ext
  intro x
  cases k <;> cases ce <;> cases cl <;> cases ct <;> cases x <;>
    simp [record, add_eou, add_llm, add_tts, check_complete_turn, kindsStep,
      eq_univ_kinds_iff, filledKinds, slot, Finset.mem_insert, Finset.mem_filter]

/-- Running record calls evolves the filled-kinds set by folding
`kindsStep`. -/
lemma filledKinds_runRecords (calls : List (Kind × ℚ)) :
    ∀ s : SimpleLatencyTracker,
      filledKinds (runRecords calls s)
        = calls.foldl (fun K c => kindsStep K c.1) (filledKinds s) := by
  induction calls with
  | nil => intro s; rfl
  | cons c rest ih =>
    intro s
    have h1 : runRecords (c :: rest) s = runRecords rest (record c.1 c.2 s).1 := rfl
    rw [h1, ih, List.foldl_cons, filledKinds_record]

/-- No slot of the fresh tracker is filled. -/
lemma filledKinds_init : filledKinds initTracker = ∅ := by decide

/-! ## C1 -/

/-- C1: starting from an empty pending turn, a record call produces a
`CompletedTurn` exactly when its kind is the third distinct kind recorded
since the last completion (`kindsSince` tracks the distinct kinds recorded
since the last completion, resetting when the third arrives); in particular a
call that leaves only one or two kinds filled — `insert k (kindsSince calls)`
short of all three kinds — never produces one. -/
theorem record_completes_iff_third_distinct_kind :
    ∀ (calls : List (Kind × ℚ)) (k : Kind) (v : ℚ),
      (record k v (runRecords calls initTracker)).2.1.isSome ↔
        insert k (kindsSince calls) = Finset.univ := by
  intro calls k v
  rw [record_isSome_iff]
  have h : kindsSince calls = filledKinds (runRecords calls initTracker) := by
    rw [filledKinds_runRecords, filledKinds_init]
    rfl
  rw [h]

/-! ## C2 -/

/-- C2: the invariant — each per-series history list has length
`turn_count`, the number of completed turns — holds initially, holds at
every point of every record sequence, and is preserved by every record call;
a completing call increments `turn_count` by exactly one (a non-completing
call leaves it unchanged) and leaves all three pending slots reset to
absent.  (The embedding's state holds exactly one triple of pending slots,
so "at most one pending turn" is structural.) -/
theorem inv_preserved_by_record :
    Inv initTracker ∧
    (∀ calls : List (Kind × ℚ), Inv (runRecords calls initTracker)) ∧
    ∀ (s : SimpleLatencyTracker) (k : Kind) (v : ℚ), Inv s →
      Inv (record k v s).1 ∧
      (record k v s).1.turn_count
        = s.turn_count + (if (record k v s).2.1.isSome then 1 else 0) ∧
      ((record k v s).2.1.isSome →
        (record k v s).1.current_eou = none ∧
        (record k v s).1.current_llm = none ∧
        (record k v s).1.current_tts = none) := by
  have hstep : ∀ (s : SimpleLatencyTracker) (k : Kind) (v : ℚ), Inv s →
      Inv (record k v s).1 ∧
      (record k v s).1.turn_count
        = s.turn_count + (if (record k v s).2.1.isSome then 1 else 0) ∧
      ((record k v s).2.1.isSome →
        (record k v s).1.current_eou = none ∧
        (record k v s).1.current_llm = none ∧
        (record k v s).1.current_tts = none) := by
    intro s k v h
    obtain ⟨ed, lt, tt, tc, ce, cl, ct⟩ := s
    obtain ⟨h1, h2, h3⟩ := h
    simp only [Inv] at h1 h2 h3 ⊢
    cases k <;> cases ce <;> cases cl <;> cases ct <;>
      simp_all [record, add_eou, add_llm, add_tts, check_complete_turn, Inv]
  have hinit : Inv initTracker := ⟨rfl, rfl, rfl⟩
  refine ⟨hinit, ?_, hstep⟩
  intro calls
  have : ∀ (cs : List (Kind × ℚ)) (s : SimpleLatencyTracker), Inv s →
      Inv (runRecords cs s) := by
    intro cs
    induction cs with
    | nil => intro s h; exact h
    | cons c rest ih =>
      intro s h
      exact ih _ ((hstep s c.1 c.2 h).1)
  exact this calls initTracker hinit

/-- Witness for C2: the conjunction instantiated at the fresh tracker and a
concrete record call. -/
theorem inv_preserved_by_record_witness :
    Inv (record Kind.eou 5 initTracker).1 ∧
    (record Kind.eou 5 initTracker).1.turn_count
      = initTracker.turn_count
        + (if (record Kind.eou 5 initTracker).2.1.isSome then 1 else 0) ∧
    ((record Kind.eou 5 initTracker).2.1.isSome →
      (record Kind.eou 5 initTracker).1.current_eou = none ∧
      (record Kind.eou 5 initTracker).1.current_llm = none ∧
      (record Kind.eou 5 initTracker).1.current_tts = none) :=
  inv_preserved_by_record.2.2 initTracker Kind.eou 5 ⟨rfl, rfl, rfl⟩

/-- Decidable equality of `Except` results, for settling concrete runs by
`decide`. -/
instance exceptDecEq {e a : Type} [DecidableEq e] [DecidableEq a] :
    DecidableEq (Except e a) := fun x y =>
  match x, y with
  | Except.ok v, Except.ok w =>
    if h : v = w then isTrue (by rw [h]) else isFalse fun hc => h (Except.ok.inj hc)
  | Except.ok _, Except.error _ => isFalse fun hc => Except.noConfusion hc
  | Except.error _, Except.ok _ => isFalse fun hc => Except.noConfusion hc
  | Except.error v, Except.error w =>
    if h : v = w then isTrue (by rw [h]) else isFalse fun hc => h (Except.error.inj hc)

/-- Reduction of a successful `Except` bind (for unfolding the `do` blocks). -/
lemma exc_bind_ok {α β : Type} (a : α) (f : α → Except String β) :
    (Except.ok a >>= f : Except String β) = f a := rfl

/-- Reduction of a failing `Except` bind. -/
lemma exc_bind_error {α β : Type} (e : String) (f : α → Except String β) :
    (Except.error e >>= f : Except String β) = Except.error e := rfl

/-- A list permuting a singleton is that singleton. -/
lemma perm_singleton_eq {α : Type} {l : List α} {a : α} (h : l.Perm [a]) :
    l = [a] :=
  List.perm_singleton.mp h

/-- A list permuting a pair is one of its two orders. -/
lemma perm_pair_eq {α : Type} {l : List α} {a b : α} (h : l.Perm [a, b]) :
    l = [a, b] ∨ l = [b, a] := by
  have hlen : l.length = 2 := h.length_eq
  match l, hlen, h with
  | [x, y], _, h =>
    have hx : x ∈ [a, b] := h.mem_iff.mp (by simp)
    simp only [List.mem_cons, List.not_mem_nil, or_false] at hx
    rcases hx with rfl | rfl
    · rw [perm_singleton_eq h.cons_inv]
      exact Or.inl rfl
    · have hswap : ([a, x] : List α).Perm [x, a] := List.Perm.swap x a []
      rw [perm_singleton_eq (h.trans hswap).cons_inv]
      exact Or.inr rfl

/-- A list permuting a triple is one of its six orders. -/
lemma perm_three_eq {α : Type} {l : List α} {a b c : α} (h : l.Perm [a, b, c]) :
    l = [a, b, c] ∨ l = [a, c, b] ∨ l = [b, a, c] ∨ l = [b, c, a] ∨
      l = [c, a, b] ∨ l = [c, b, a] := by
  have hlen : l.length = 3 := h.length_eq
  match l, hlen, h with
  | [x, y, z], _, h =>
    have hx : x ∈ [a, b, c] := h.mem_iff.mp (by simp)
    simp only [List.mem_cons, List.not_mem_nil, or_false] at hx
    rcases hx with rfl | rfl | rfl
    · rcases perm_pair_eq h.cons_inv with h2 | h2 <;>
        · obtain ⟨rfl, rfl⟩ : y = _ ∧ z = _ := by simpa using h2
          simp
    · have hswap : ([a, x, c] : List α).Perm (x :: a :: [c]) := List.Perm.swap x a [c]
      rcases perm_pair_eq (h.trans hswap).cons_inv with h2 | h2 <;>
        · obtain ⟨rfl, rfl⟩ : y = _ ∧ z = _ := by simpa using h2
          simp
    · have hswap1 : ([a, b, x] : List α).Perm (a :: x :: [b]) :=
        List.Perm.cons a (List.Perm.swap x b [])
      have hswap2 : (a :: x :: [b] : List α).Perm (x :: a :: [b]) :=
        List.Perm.swap x a [b]
      rcases perm_pair_eq ((h.trans hswap1).trans hswap2).cons_inv with h2 | h2 <;>
        · obtain ⟨rfl, rfl⟩ : y = _ ∧ z = _ := by simpa using h2
          simp

/-! ## C5 -/

/-- C5: from any state whose pending slots are all empty, a sequence of
valid events containing exactly one event of each of the three kinds (in any
of the six orders) grows each history list by exactly one, completes exactly
one turn, and that turn's `total_ms` is the sum of the three supplied
second-durations each converted to milliseconds (multiplied by 1000). -/
theorem one_of_each_kind_completes_one_turn :
    ∀ (e l t : ℚ) (evs : List RawMetric) (s : SimpleLatencyTracker),
      evs.Perm [RawMetric.eouMetrics (some (PyVal.num e)),
                RawMetric.llmMetrics (some (PyVal.num l)),
                RawMetric.ttsMetrics (some (PyVal.num t))] →
      s.current_eou = none → s.current_llm = none → s.current_tts = none →
      (runEvents evs s).1.eou_delays.length = s.eou_delays.length + 1 ∧
      (runEvents evs s).1.llm_ttfts.length = s.llm_ttfts.length + 1 ∧
      (runEvents evs s).1.tts_ttfbs.length = s.tts_ttfbs.length + 1 ∧
      (runEvents evs s).1.turn_count = s.turn_count + 1 ∧
      (runEvents evs s).2 =
        [{ index := s.turn_count + 1, eou_ms := e * 1000, llm_ttft_ms := l * 1000,
           tts_ttfb_ms := t * 1000,
           total_ms := e * 1000 + l * 1000 + t * 1000 }] := by
  intro e l t evs s hperm h1 h2 h3
  obtain ⟨ed, lt', tt', tc, ce, cl, ct⟩ := s
  simp only at h1 h2 h3
  subst h1 h2 h3
  rcases perm_three_eq hperm with rfl | rfl | rfl | rfl | rfl | rfl <;>
    simp [runEvents, on_metrics_collected, tryHandle, pyMulMs, record,
      add_eou, add_llm, add_tts, check_complete_turn, exc_bind_ok]

/-- Witness for C5: the example of spec section 8 — EOU 0.12 s, LLM 0.3 s,
TTS 0.15 s from the fresh tracker give one completed turn with
`total_ms = 570`. -/
theorem one_of_each_kind_completes_one_turn_witness :
    (runEvents [RawMetric.eouMetrics (some (PyVal.num 0.12)),
                RawMetric.llmMetrics (some (PyVal.num 0.3)),
                RawMetric.ttsMetrics (some (PyVal.num 0.15))]
        initTracker).1.eou_delays.length = initTracker.eou_delays.length + 1 ∧
    (runEvents [RawMetric.eouMetrics (some (PyVal.num 0.12)),
                RawMetric.llmMetrics (some (PyVal.num 0.3)),
                RawMetric.ttsMetrics (some (PyVal.num 0.15))]
        initTracker).1.llm_ttfts.length = initTracker.llm_ttfts.length + 1 ∧
    (runEvents [RawMetric.eouMetrics (some (PyVal.num 0.12)),
                RawMetric.llmMetrics (some (PyVal.num 0.3)),
                RawMetric.ttsMetrics (some (PyVal.num 0.15))]
        initTracker).1.tts_ttfbs.length = initTracker.tts_ttfbs.length + 1 ∧
    (runEvents [RawMetric.eouMetrics (some (PyVal.num 0.12)),
                RawMetric.llmMetrics (some (PyVal.num 0.3)),
                RawMetric.ttsMetrics (some (PyVal.num 0.15))]
        initTracker).1.turn_count = initTracker.turn_count + 1 ∧
    (runEvents [RawMetric.eouMetrics (some (PyVal.num 0.12)),
                RawMetric.llmMetrics (some (PyVal.num 0.3)),
                RawMetric.ttsMetrics (some (PyVal.num 0.15))]
        initTracker).2 =
      [{ index := initTracker.turn_count + 1, eou_ms := 0.12 * 1000,
         llm_ttft_ms := 0.3 * 1000, tts_ttfb_ms := 0.15 * 1000,
         total_ms := 0.12 * 1000 + 0.3 * 1000 + 0.15 * 1000 }] :=
  one_of_each_kind_completes_one_turn 0.12 0.3 0.15 _ initTracker
    (List.Perm.refl _) rfl rfl rfl

/-! ## C6 -/

/-- C6: recording the same kind twice while the turn is still pending (the
first call completed nothing) makes the earlier value irrelevant — the
result of recording the later value is exactly the result of recording it
alone, so only the final value reaches the completed turn and its total. -/
theorem duplicate_kind_overwrites :
    ∀ (s : SimpleLatencyTracker) (k : Kind) (v1 v2 : ℚ),
      (record k v1 s).2.1 = none →
      record k v2 (record k v1 s).1 = record k v2 s := by
  intro s k v1 v2 h
  obtain ⟨ed, lt', tt', tc, ce, cl, ct⟩ := s
  cases k <;> cases ce <;> cases cl <;> cases ct <;>
    simp_all [record, add_eou, add_llm, add_tts, check_complete_turn]

/-- Witness for C6: overwriting a first EOU value on the fresh tracker. -/
theorem duplicate_kind_overwrites_witness :
    record Kind.eou 2 (record Kind.eou 1 initTracker).1
      = record Kind.eou 2 initTracker :=
  duplicate_kind_overwrites initTracker Kind.eou 1 2 rfl

/-! ## C7 -/

/-- C7: an event whose duration field is `None` (or absent, for the
configurable handler) is ignored entirely by both handlers: the tracker
state is returned unchanged, no `CompletedTurn` is produced, and no log line
is emitted. -/
theorem null_duration_event_ignored :
    ∀ s : SimpleLatencyTracker,
      on_metrics_collected (RawMetric.eouMetrics none) s = (s, none, []) ∧
      on_metrics_collected (RawMetric.llmMetrics none) s = (s, none, []) ∧
      on_metrics_collected (RawMetric.ttsMetrics none) s = (s, none, []) ∧
      config_on_metrics_collected
        { end_of_utterance_delay := some none, ttft := none, ttfb := none } s
        = (s, [], []) ∧
      config_on_metrics_collected
        { end_of_utterance_delay := none, ttft := some none, ttfb := none } s
        = (s, [], []) ∧
      config_on_metrics_collected
        { end_of_utterance_delay := none, ttft := none, ttfb := some none } s
        = (s, [], []) := by
  intro s
  exact ⟨rfl, rfl, rfl, rfl, rfl, rfl⟩

/-! ## C9 -/

/-- C9: the `try`/`except` boundary of both handlers suppresses every
exception raised while classifying an event or extracting its payload: a
malformed payload (one whose `* 1000` raises) leaves the tracker exactly as
it was before the failing step — completely unchanged for the `agent.py`
handler and for a failing first probe of the configurable handler, and with
only the earlier, successful probes applied when a later probe of the
configurable handler fails — while well-formed payloads reach the normal
`add_*` call, and unrecognized kinds are ignored. -/
theorem exception_in_handler_suppressed :
    ∀ (s : SimpleLatencyTracker) (q : ℚ),
      on_metrics_collected (RawMetric.eouMetrics (some PyVal.nonNum)) s
        = (s, none, []) ∧
      on_metrics_collected (RawMetric.llmMetrics (some PyVal.nonNum)) s
        = (s, none, []) ∧
      on_metrics_collected (RawMetric.ttsMetrics (some PyVal.nonNum)) s
        = (s, none, []) ∧
      on_metrics_collected RawMetric.otherMetrics s = (s, none, []) ∧
      on_metrics_collected (RawMetric.eouMetrics (some (PyVal.num q))) s
        = add_eou (q * 1000) s ∧
      on_metrics_collected (RawMetric.llmMetrics (some (PyVal.num q))) s
        = add_llm (q * 1000) s ∧
      on_metrics_collected (RawMetric.ttsMetrics (some (PyVal.num q))) s
        = add_tts (q * 1000) s ∧
      config_on_metrics_collected
        { end_of_utterance_delay := some (some PyVal.nonNum), ttft := none,
          ttfb := none } s = (s, [], []) ∧
      config_on_metrics_collected
        { end_of_utterance_delay := some (some (PyVal.num q)),
          ttft := some (some PyVal.nonNum), ttfb := none } s
        = ((add_eou (q * 1000) s).1, (add_eou (q * 1000) s).2.1.toList,
           (add_eou (q * 1000) s).2.2) := by
  intro s q
  exact ⟨rfl, rfl, rfl, rfl, rfl, rfl, rfl, rfl, rfl⟩

/-! ## Statistics helpers -/

/-- The exact mean a non-empty series gets from `statistics.mean` /
`sum(xs)/len(xs)`. -/
def meanQ (xs : List ℚ) : ℚ :=
  xs.sum / (xs.length : ℚ)

/-- The value Python's `min` returns on a non-empty list (0 on `[]`, a case
`pyMin` never reaches). -/
def minQ (xs : List ℚ) : ℚ :=
  match xs with
  | [] => 0
  | x :: rest => rest.foldl min x

/-- The value Python's `max` returns on a non-empty list. -/
def maxQ (xs : List ℚ) : ℚ :=
  match xs with
  | [] => 0
  | x :: rest => rest.foldl max x

/-- The nearest-rank percentile the tracker selects: the ascending-sorted
series at the unclamped index `int(n * p / 100)`. -/
def selP (xs : List ℚ) (p : Nat) : ℚ :=
  (sortedQ xs).getD (pIdx xs.length p) 0

/-- Sorting preserves length. -/
lemma length_sortedQ (xs : List ℚ) : (sortedQ xs).length = xs.length :=
  (List.perm_insertionSort _ xs).length_eq

/-- The unclamped percentile index stays strictly below the length for any
percentile under 100. -/
lemma pIdx_lt {n p : Nat} (hn : 0 < n) (hp : p < 100) : pIdx n p < n := by
  have h : n * p < n * 100 := mul_lt_mul_of_pos_left hp hn
  have h2 : n * p < 100 * n := by rw [mul_comm 100 n]; exact h
  exact Nat.div_lt_of_lt_mul h2

/-- In-bounds Python indexing succeeds with the list element. -/
lemma listGet?_eq_getD (xs : List ℚ) (i : Nat) (h : i < xs.length) :
    listGet? xs i = Except.ok (xs.getD i 0) := by
  have hg : xs.get? i = some (xs.getD i 0) := by
    rw [List.getD_eq_getElem?_getD, List.get?_eq_getElem?]
    simp [List.getElem?_eq_getElem h]
  unfold listGet?
  rw [hg]

/-- `statistics.mean` succeeds on a non-empty series. -/
lemma pyMean_ok (xs : List ℚ) (h : xs ≠ []) :
    pyMean xs = Except.ok (meanQ xs) := by
  unfold pyMean meanQ
  rw [if_neg (by simpa using h)]

/-- `min` succeeds on a non-empty list. -/
lemma pyMin_ok (xs : List ℚ) (h : xs ≠ []) :
    pyMin xs = Except.ok (minQ xs) := by
  cases xs with
  | nil => exact absurd rfl h
  | cons x rest => rfl

/-- `max` succeeds on a non-empty list. -/
lemma pyMax_ok (xs : List ℚ) (h : xs ≠ []) :
    pyMax xs = Except.ok (maxQ xs) := by
  cases xs with
  | nil => exact absurd rfl h
  | cons x rest => rfl

/-- The stat block a non-empty series produces: mean, the three nearest-rank
percentiles at the unclamped indices, min and max. -/
def statsOf (xs : List ℚ) : Stats :=
  { avg := meanQ xs, p50 := selP xs 50, p90 := selP xs 90, p99 := selP xs 99,
    min := minQ xs, max := maxQ xs }

/-- On a non-empty series `calc_stats` succeeds and reports `statsOf`: the
`n > 1` guards of the source make no difference because for `n = 1` the
unclamped index is 0, the very fallback the guard selects. -/
lemma calc_stats_of_ne (values : List ℚ) (h : values ≠ []) :
    calc_stats values = Except.ok (some (statsOf values)) := by
  unfold statsOf
  have hlen : 0 < values.length := List.length_pos.mpr h
  have hslen : (sortedQ values).length = values.length := length_sortedQ values
  have h50 : listGet? (sortedQ values) (pIdx values.length 50)
      = Except.ok (selP values 50) := by
    rw [listGet?_eq_getD _ _ (by rw [hslen]; exact pIdx_lt hlen (by norm_num))]
    rfl
  have h90 : listGet? (sortedQ values) (pIdx values.length 90)
      = Except.ok (selP values 90) := by
    rw [listGet?_eq_getD _ _ (by rw [hslen]; exact pIdx_lt hlen (by norm_num))]
    rfl
  have h99 : listGet? (sortedQ values) (pIdx values.length 99)
      = Except.ok (selP values 99) := by
    rw [listGet?_eq_getD _ _ (by rw [hslen]; exact pIdx_lt hlen (by norm_num))]
    rfl
  rcases Nat.lt_or_ge 1 values.length with hgt | hle
  · simp only [calc_stats, if_neg h, hslen, if_pos hlen, if_pos hgt,
      pyMean_ok values h, exc_bind_ok, h50, h90, h99,
      pyMin_ok values h, pyMax_ok values h]
  · have h1 : values.length = 1 := le_antisymm hle hlen
    have hz90 : pIdx values.length 90 = 0 := by rw [h1]; rfl
    have hz99 : pIdx values.length 99 = 0 := by rw [h1]; rfl
    have hnotgt : ¬ 1 < values.length := by omega
    have hsel : selP values 90 = selP values 99 := by
      unfold selP
      rw [hz90, hz99]
    simp only [calc_stats, if_neg h, hslen, if_pos hlen, if_neg hnotgt,
      pyMean_ok values h, exc_bind_ok, h50, hz90 ▸ h90, hz99 ▸ h99,
      pyMin_ok values h, pyMax_ok values h]
    rw [hsel]

/-! ## C3 -/

/-- The index of the claim: `floor(n * p / 100)` clamped so that `n = 1`
gives 0 and `n > 1` gives `min (floor(n * p / 100)) (n - 1)`. -/
def specIdx (n p : Nat) : Nat :=
  if n = 1 then 0 else min (n * p / 100) (n - 1)

/-- The clamp of the claimed index is vacuous: for a positive length and a
percentile under 100 it coincides with the unclamped index the code uses. -/
lemma specIdx_eq_pIdx {n p : Nat} (hn : 0 < n) (hp : p < 100) :
    specIdx n p = pIdx n p := by
  unfold specIdx
  by_cases h1 : n = 1
  · subst h1
    rw [if_pos rfl]
    unfold pIdx
    rw [Nat.one_mul, Nat.div_eq_of_lt hp]
  · rw [if_neg h1]
    exact min_eq_left (Nat.le_sub_one_of_lt (pIdx_lt hn hp))

/-- C3: for every non-empty series, `calc_stats` reports P50/P90/P99 as
nearest-rank order statistics of the ascending-sorted series at index
`specIdx` — 0 for `n = 1` (all percentiles equal the single value),
`min (floor(n * p), n - 1)` for `n > 1` — and the configurable tracker's P90
selection agrees; in particular the ten totals 100..1000 give mean 550,
P50 = sorted[5] = 600 and P90 = sorted[9] = 1000. -/
theorem calc_stats_nearest_rank :
    (∀ values : List ℚ, values ≠ [] →
      calc_stats values = Except.ok (some
        { avg := meanQ values,
          p50 := (sortedQ values).getD (specIdx values.length 50) 0,
          p90 := (sortedQ values).getD (specIdx values.length 90) 0,
          p99 := (sortedQ values).getD (specIdx values.length 99) 0,
          min := minQ values, max := maxQ values }) ∧
      config_p90 values
        = Except.ok ((sortedQ values).getD (specIdx values.length 90) 0)) ∧
    calc_stats [100, 200, 300, 400, 500, 600, 700, 800, 900, 1000]
      = Except.ok (some { avg := 550, p50 := 600, p90 := 1000, p99 := 1000,
                          min := 100, max := 1000 }) := by
  constructor
  · intro values h
    have hlen : 0 < values.length := List.length_pos.mpr h
    have hslen : (sortedQ values).length = values.length := length_sortedQ values
    have e50 : specIdx values.length 50 = pIdx values.length 50 :=
      specIdx_eq_pIdx hlen (by norm_num)
    have e90 : specIdx values.length 90 = pIdx values.length 90 :=
      specIdx_eq_pIdx hlen (by norm_num)
    have e99 : specIdx values.length 99 = pIdx values.length 99 :=
      specIdx_eq_pIdx hlen (by norm_num)
    constructor
    · rw [calc_stats_of_ne values h]
      unfold statsOf selP
      rw [e50, e90, e99]
    · have hb : pIdx (sortedQ values).length 90 < (sortedQ values).length := by
        rw [hslen]
        exact pIdx_lt hlen (by norm_num)
      simp only [config_p90]
      rw [if_pos hb, listGet?_eq_getD _ _ hb, hslen, e90]
  · rw [calc_stats_of_ne _ (by decide)]
    have havg : meanQ [100, 200, 300, 400, 500, 600, 700, 800, 900, 1000] = 550 := by
      norm_num [meanQ, List.sum_cons, List.sum_nil]
    unfold statsOf
    rw [havg]
    decide

/-- Witness for C3: the general part applied to the singleton series `[7]`,
where all three percentile indices clamp to 0. -/
theorem calc_stats_nearest_rank_witness :
    calc_stats [7] = Except.ok (some
      { avg := meanQ [7],
        p50 := (sortedQ [7]).getD (specIdx (List.length [(7 : ℚ)]) 50) 0,
        p90 := (sortedQ [7]).getD (specIdx (List.length [(7 : ℚ)]) 90) 0,
        p99 := (sortedQ [7]).getD (specIdx (List.length [(7 : ℚ)]) 99) 0,
        min := minQ [7], max := maxQ [7] }) ∧
    config_p90 [7]
      = Except.ok ((sortedQ [7]).getD (specIdx (List.length [(7 : ℚ)]) 90) 0) :=
  calc_stats_nearest_rank.1 [7] (List.cons_ne_nil 7 [])

/-! ## C10 -/

/-- C10: for every non-empty series the unclamped indices
`int(n * 0.50)`, `int(n * 0.90)`, `int(n * 0.99)` are at most `n - 1`, so
the sorted-list indexing of `calc_stats` and the standalone P90/P99 lines
never goes out of bounds; consequently the guard of the configurable
tracker's P90 computation always takes the indexing branch and its
`sorted_totals[-1]` fallback is unreachable. -/
theorem percentile_index_in_bounds :
    ∀ values : List ℚ, values ≠ [] →
      pIdx values.length 50 ≤ values.length - 1 ∧
      pIdx values.length 90 ≤ values.length - 1 ∧
      pIdx values.length 99 ≤ values.length - 1 ∧
      pIdx (sortedQ values).length 90 < (sortedQ values).length ∧
      config_p90 values
        = listGet? (sortedQ values) (pIdx (sortedQ values).length 90) := by
  intro values h
  have hlen : 0 < values.length := List.length_pos.mpr h
  have hslen : (sortedQ values).length = values.length := length_sortedQ values
  have hb : pIdx (sortedQ values).length 90 < (sortedQ values).length := by
    rw [hslen]
    exact pIdx_lt hlen (by norm_num)
  refine ⟨Nat.le_sub_one_of_lt (pIdx_lt hlen (by norm_num)),
    Nat.le_sub_one_of_lt (pIdx_lt hlen (by norm_num)),
    Nat.le_sub_one_of_lt (pIdx_lt hlen (by norm_num)), hb, ?_⟩
  simp only [config_p90]
  rw [if_pos hb]

/-- Witness for C10: the bounds and the taken branch at the singleton series
`[100]`. -/
theorem percentile_index_in_bounds_witness :
    pIdx (List.length [(100 : ℚ)]) 50 ≤ List.length [(100 : ℚ)] - 1 ∧
    pIdx (List.length [(100 : ℚ)]) 90 ≤ List.length [(100 : ℚ)] - 1 ∧
    pIdx (List.length [(100 : ℚ)]) 99 ≤ List.length [(100 : ℚ)] - 1 ∧
    pIdx (sortedQ [100]).length 90 < (sortedQ [100]).length ∧
    config_p90 [100]
      = listGet? (sortedQ [100]) (pIdx (sortedQ [100]).length 90) :=
  percentile_index_in_bounds [100] (List.cons_ne_nil 100 [])

/-! ## C8 -/

/-- C8: with zero completed turns both summaries return the no-data result
(`none`, the source's "No complete turns recorded" early return) and no
runtime failure — no `Except.error` from a division by zero or an
out-of-bounds index — and, both embeddings being read-only functions of the
state exactly like the source methods, which mutate nothing, the tracker is
left unchanged. -/
theorem empty_history_summary_no_data :
    ∀ s : SimpleLatencyTracker, s.turn_count = 0 →
      print_summary s = Except.ok none ∧
      config_print_summary s = Except.ok none := by
  intro s h
  constructor
  · unfold print_summary
    rw [if_pos h]
  · unfold config_print_summary
    rw [if_pos h]

/-- Witness for C8: the fresh tracker has zero turns. -/
theorem empty_history_summary_no_data_witness :
    print_summary initTracker = Except.ok none ∧
    config_print_summary initTracker = Except.ok none :=
  empty_history_summary_no_data initTracker rfl

/-! ## C4 -/

/-- Under the invariant, the totals list has one entry per completed turn. -/
lemma totalsOf_length (s : SimpleLatencyTracker) (h : Inv s) :
    (totalsOf s).length = s.turn_count := by
  obtain ⟨h1, h2, h3⟩ := h
  simp [totalsOf, List.length_zip, h1, h2, h3]

/-- The standalone `sorted(totals)[int(len * p/100)] if len > 1 else totals[0]`
expression equals the nearest-rank selection on any non-empty list. -/
lemma standalone_p_eq (totals : List ℚ) (p : Nat) (hp : p < 100)
    (h : totals ≠ []) :
    standalone_p totals p = Except.ok (selP totals p) := by
  have hlen : 0 < totals.length := List.length_pos.mpr h
  unfold standalone_p
  rcases Nat.lt_or_ge 1 totals.length with hgt | hle
  · rw [if_pos hgt,
      listGet?_eq_getD _ _ (by rw [length_sortedQ]; exact pIdx_lt hlen hp)]
    rfl
  · have h1 : totals.length = 1 := le_antisymm hle hlen
    rw [if_neg (by omega)]
    obtain ⟨x, hx⟩ := List.length_eq_one.mp h1
    subst hx
    have hz : pIdx ([x] : List ℚ).length p = 0 := by
      unfold pIdx
      simp only [List.length_singleton, Nat.one_mul]
      exact Nat.div_eq_of_lt hp
    unfold selP
    rw [hz]
    rfl

/-- Under the invariant, `print_summary` on a non-empty history succeeds and
reports the four full stat blocks, the standalone total percentiles, and the
threshold verdict. -/
lemma print_summary_of_inv (s : SimpleLatencyTracker) (hInv : Inv s)
    (htc : s.turn_count ≠ 0) :
    print_summary s = Except.ok (some
      { total_turns := s.turn_count,
        eou := some (statsOf s.eou_delays),
        llm := some (statsOf s.llm_ttfts),
        tts := some (statsOf s.tts_ttfbs),
        total := some (statsOf (totalsOf s)),
        total_p90 := selP (totalsOf s) 90,
        total_p99 := selP (totalsOf s) 99,
        verdict := if selP (totalsOf s) 90 < 500 then Verdict.excellent
          else if selP (totalsOf s) 90 < 800 then Verdict.good
          else Verdict.needsOptimization }) := by
  have htcpos : 0 < s.turn_count := Nat.pos_of_ne_zero htc
  have hel : s.eou_delays ≠ [] :=
    List.ne_nil_of_length_pos (by rw [hInv.1]; exact htcpos)
  have hll : s.llm_ttfts ≠ [] :=
    List.ne_nil_of_length_pos (by rw [hInv.2.1]; exact htcpos)
  have htt : s.tts_ttfbs ≠ [] :=
    List.ne_nil_of_length_pos (by rw [hInv.2.2]; exact htcpos)
  have htot : totalsOf s ≠ [] :=
    List.ne_nil_of_length_pos (by rw [totalsOf_length s hInv]; exact htcpos)
  simp only [print_summary, if_neg htc,
    standalone_p_eq (totalsOf s) 90 (by norm_num) htot,
    standalone_p_eq (totalsOf s) 99 (by norm_num) htot]
  simp only [calc_stats_of_ne _ hel, calc_stats_of_ne _ hll,
    calc_stats_of_ne _ htt, calc_stats_of_ne _ htot, exc_bind_ok]

/-- A concrete tracker with one completed turn (EOU 100 ms, LLM 200 ms,
TTS 300 ms). -/
def oneTurnTracker : SimpleLatencyTracker :=
  { eou_delays := [100], llm_ttfts := [200], tts_ttfbs := [300], turn_count := 1,
    current_eou := none, current_llm := none, current_tts := none }

/-- C4, counterexample: on a non-empty history the configurable tracker's
summary — one of the two summaries the claim covers — reports only the
per-series means and the totals' mean, P90, min and max: its report carries
no verdict line, no P99 of the totals and no P50 of the EOU series, so the
claim's "P50, P90, P99, min and max for each of the four series plus a
qualitative verdict" fails on it. -/
theorem config_summary_lacks_claimed_numbers :
    config_print_summary oneTurnTracker = Except.ok (some
      { turn_count := 1, avg_eou := 100, avg_llm := 200, avg_tts := 300,
        avg_total := 600, p90_total := 600, min_total := 600, max_total := 600 }) ∧
    hasVerdict (configReport
      { turn_count := 1, avg_eou := 100, avg_llm := 200, avg_tts := 300,
        avg_total := 600, p90_total := 600, min_total := 600, max_total := 600 })
      = false ∧
    hasStat (configReport
      { turn_count := 1, avg_eou := 100, avg_llm := 200, avg_tts := 300,
        avg_total := 600, p90_total := 600, min_total := 600, max_total := 600 })
      SeriesName.totalS StatName.p99S = false ∧
    hasStat (configReport
      { turn_count := 1, avg_eou := 100, avg_llm := 200, avg_tts := 300,
        avg_total := 600, p90_total := 600, min_total := 600, max_total := 600 })
      SeriesName.eouS StatName.p50S = false := by
  have h6 : totalsOf oneTurnTracker = [600] := by
    norm_num [totalsOf, oneTurnTracker]
  have hm600 : pyMean [(600 : ℚ)] = Except.ok 600 := by
    rw [pyMean_ok _ (by decide)]
    norm_num [meanQ]
  have hm100 : pyMean [(100 : ℚ)] = Except.ok 100 := by
    rw [pyMean_ok _ (by decide)]
    norm_num [meanQ]
  have hm200 : pyMean [(200 : ℚ)] = Except.ok 200 := by
    rw [pyMean_ok _ (by decide)]
    norm_num [meanQ]
  have hm300 : pyMean [(300 : ℚ)] = Except.ok 300 := by
    rw [pyMean_ok _ (by decide)]
    norm_num [meanQ]
  have hp : config_p90 [(600 : ℚ)] = Except.ok 600 := by
    simp only [config_p90]
    rw [if_pos (by decide)]
    rfl
  refine ⟨?_, rfl, rfl, rfl⟩
  unfold config_print_summary
  rw [if_neg (show ¬ (oneTurnTracker.turn_count = 0) by decide)]
  simp only [h6, show oneTurnTracker.eou_delays = [100] from rfl,
    show oneTurnTracker.llm_ttfts = [200] from rfl,
    show oneTurnTracker.tts_ttfbs = [300] from rfl,
    show oneTurnTracker.turn_count = 1 from rfl,
    hm600, hm100, hm200, hm300, hp,
    show pyMin [(600 : ℚ)] = Except.ok 600 from rfl,
    show pyMax [(600 : ℚ)] = Except.ok 600 from rfl,
    exc_bind_ok]

/-- The threshold chain of `agent.py` lines 125-130, characterized: each of
the three verdicts is produced exactly on its band of the total P90. -/
lemma verdict_iff (x : ℚ) :
    ((if x < 500 then Verdict.excellent else if x < 800 then Verdict.good
        else Verdict.needsOptimization) = Verdict.excellent ↔ x < 500) ∧
    ((if x < 500 then Verdict.excellent else if x < 800 then Verdict.good
        else Verdict.needsOptimization) = Verdict.good ↔ 500 ≤ x ∧ x < 800) ∧
    ((if x < 500 then Verdict.excellent else if x < 800 then Verdict.good
        else Verdict.needsOptimization) = Verdict.needsOptimization ↔ 800 ≤ x) := by
  by_cases h1 : x < 500
  · rw [if_pos h1]
    exact ⟨⟨fun _ => h1, fun _ => rfl⟩,
      ⟨fun h => Verdict.noConfusion h, fun hx => absurd h1 (not_lt.mpr hx.1)⟩,
      ⟨fun h => Verdict.noConfusion h,
        fun hx => absurd h1 (not_lt.mpr (le_trans (by norm_num) hx))⟩⟩
  · rw [if_neg h1]
    by_cases h2 : x < 800
    · rw [if_pos h2]
      exact ⟨⟨fun h => Verdict.noConfusion h, fun hx => absurd hx h1⟩,
        ⟨fun _ => ⟨not_lt.mp h1, h2⟩, fun _ => rfl⟩,
        ⟨fun h => Verdict.noConfusion h, fun hx => absurd h2 (not_lt.mpr hx)⟩⟩
    · rw [if_neg h2]
      exact ⟨⟨fun h => Verdict.noConfusion h, fun hx => absurd hx h1⟩,
        ⟨fun h => Verdict.noConfusion h, fun hx => absurd hx.2 h2⟩,
        ⟨fun _ => not_lt.mp h2, fun _ => rfl⟩⟩

/-- C4 (amended): for every non-empty history satisfying the invariant, the
`agent.py` summary succeeds and reports all of mean, P50, P90, P99, min and
max for each of the four series plus the qualitative verdict, whose value is
"excellent" exactly when the reported total P90 is under 500 ms, "good"
exactly when it is in [500, 800), and "needs optimization" exactly when it is
at least 800 ms; the reported standalone total P90 agrees with the P90 of the
totals stat block. -/
theorem summary_reports_full_contract :
    ∀ s : SimpleLatencyTracker, Inv s → s.turn_count ≠ 0 →
      ∃ sum : Summary,
        print_summary s = Except.ok (some sum) ∧
        (∀ (sn : SeriesName) (st : StatName), hasStat (reportOf sum) sn st = true) ∧
        hasVerdict (reportOf sum) = true ∧
        (sum.verdict = Verdict.excellent ↔ sum.total_p90 < 500) ∧
        (sum.verdict = Verdict.good ↔ 500 ≤ sum.total_p90 ∧ sum.total_p90 < 800) ∧
        (sum.verdict = Verdict.needsOptimization ↔ 800 ≤ sum.total_p90) ∧
        ∃ ts : Stats, sum.total = some ts ∧ ts.p90 = sum.total_p90 := by
  intro s hInv htc
  refine ⟨_, print_summary_of_inv s hInv htc, ?_, ?_,
    (verdict_iff (selP (totalsOf s) 90)).1,
    (verdict_iff (selP (totalsOf s) 90)).2.1,
    (verdict_iff (selP (totalsOf s) 90)).2.2,
    ⟨statsOf (totalsOf s), rfl, rfl⟩⟩
  · intro sn st
    cases sn <;> cases st <;> simp [reportOf, statItems, hasStat]
  · simp [reportOf, statItems, hasVerdict]

/-- Witness for the amended C4: the contract instantiated at the concrete
one-turn tracker. -/
theorem summary_reports_full_contract_witness :
    ∃ sum : Summary,
      print_summary oneTurnTracker = Except.ok (some sum) ∧
      (∀ (sn : SeriesName) (st : StatName), hasStat (reportOf sum) sn st = true) ∧
      hasVerdict (reportOf sum) = true ∧
      (sum.verdict = Verdict.excellent ↔ sum.total_p90 < 500) ∧
      (sum.verdict = Verdict.good ↔ 500 ≤ sum.total_p90 ∧ sum.total_p90 < 800) ∧
      (sum.verdict = Verdict.needsOptimization ↔ 800 ≤ sum.total_p90) ∧
      ∃ ts : Stats, sum.total = some ts ∧ ts.p90 = sum.total_p90 :=
  summary_reports_full_contract oneTurnTracker ⟨rfl, rfl, rfl⟩ (by decide)

end LatencyAgent
